import Mathlib

/-
Shallow embedding of the contract-formation core of the Sia contractor
module (`negotiateContract`, `newContract`, `formContracts` and the data
they operate on).  Currency values (`types.Currency`, backed by big.Int)
are embedded as `Nat`; machine `uint64` arithmetic is embedded as `Nat`
with an explicit `% 2 ^ 64` where the Go code can wrap.  External
collaborators (wallet, dialer, transaction pool, host connection) are
embedded as explicit environments listing the outcome of each call, and
every externally visible action is recorded in an effect trace.
-/

namespace Contractor

/-- Modulus of Go `uint64` arithmetic. -/
def uint64Mod : Nat := 2 ^ 64

/-- Embedding of `types.SiacoinOutput`: a value and the unlock hash it is routed to.
The zero unlock hash (`types.UnlockHash{}`) is embedded as `0`. -/
structure SiacoinOutput where
  value : Nat
  unlockHash : Nat
deriving DecidableEq

/-- Embedding of `types.FileContract`, restricted to the fields the contractor touches. -/
structure FileContract where
  fileSize : Nat
  fileMerkleRoot : Nat
  windowStart : Nat
  windowEnd : Nat
  payout : Nat
  unlockHash : Nat
  revisionNumber : Nat
  validProofOutputs : List SiacoinOutput
  missedProofOutputs : List SiacoinOutput
deriving DecidableEq

/-- Embedding of `types.Transaction`, reduced to the one observation the contractor
makes of it: `FileContractID(0)`, the id of the file-contract output at
index 0. -/
structure Transaction where
  fcID0 : Nat
deriving DecidableEq

/-- Embedding of `modules.HostDBEntry`, restricted to the fields `newContract` and
`negotiateContract` read. -/
structure HostDBEntry where
  netAddress : Nat
  publicKey : Nat
  contractPrice : Nat
  collateral : Nat
  windowSize : Nat
  unlockHash : Nat
deriving DecidableEq

/-- Embedding of `types.UnlockConditions`. -/
structure UnlockConditions where
  publicKeys : List Nat
  signaturesRequired : Nat
deriving DecidableEq

/-- Modelled from the spec: the unlock-hash computation
(`UnlockConditions.UnlockHash`, a Merkle-tree hash living outside src/) is
embedded as an injective pairing of the fields; no claim depends on its
numeric value. -/
def UnlockConditions.unlockHash (uc : UnlockConditions) : Nat :=
  Nat.pair (uc.publicKeys.foldl Nat.pair 0) uc.signaturesRequired

/-- Embedding of `types.FileContractRevision`, as assembled by `negotiateContract`. -/
structure FileContractRevision where
  parentID : Nat
  unlockConditions : UnlockConditions
  newRevisionNumber : Nat
  newFileSize : Nat
  newFileMerkleRoot : Nat
  newWindowStart : Nat
  newWindowEnd : Nat
  newValidProofOutputs : List SiacoinOutput
  newMissedProofOutputs : List SiacoinOutput
  newUnlockHash : Nat
deriving DecidableEq

/-- The contractor's `Contract` record. -/
structure Contract where
  ip : Nat
  id : Nat
  fileContract : FileContract
  lastRevision : FileContractRevision
  lastRevisionTxn : Transaction
  secretKey : Nat
deriving DecidableEq

/-- Error classifications of the formation path.  `tooExpensive` is the
distinguished `errTooExpensive`; the others name the step whose failure
they propagate. -/
inductive Err where
  | tooExpensive
  | wallet
  | invalidDuration
  | dial
  | rpcWrite
  | verify
  | keyGen
  | fund
  | sign
  | sendAccept
  | sendTxnSet
  | readResponse
  | hostRejected
  | readHostTxn
  | submit
deriving DecidableEq

/-- Externally visible actions of one formation attempt, in program order:
wallet address reservation, network dial, writes/reads on the connection,
funding-draft lifecycle and persistence. -/
inductive Effect where
  | nextAddress
  | dial
  | rpcWrite
  | readSettings
  | startTxn
  | fund (amount : Nat)
  | netSend
  | netRead
  | submit
  | drop
  | save
deriving DecidableEq

/-- Outcome of `tpool.AcceptTransactionSet`: accepted, rejected as
`modules.ErrDuplicateTransactionSet`, or any other error. -/
inductive SubmitResult where
  | ok
  | duplicate
  | failed
deriving DecidableEq

/-- Result of a negotiation or formation attempt.  `panicked` is the
out-of-bounds branch of the total embedding of Go's unchecked indexing. -/
inductive Outcome where
  | panicked
  | failure (e : Err)
  | success (c : Contract)
deriving DecidableEq

/-- Embedding of `modules.AcceptResponse`, the fixed acceptance token. -/
def acceptResponse : String := "accept"

/-- Environment of one `negotiateContract` call: the outcome of each
external step (key generation, wallet funding and signing, the four
network messages, and the transaction-pool submission). -/
structure NegEnv where
  keyGen : Except Unit (Nat × Nat)
  fund : Except Unit Unit
  sign : Except Unit (List Transaction)
  sendAccept : Except Unit Unit
  sendTxnSet : Except Unit Unit
  readResponse : Except Unit String
  readHostTxnSet : Except Unit (List Transaction)
  submit : SubmitResult

/-- Embedding of `negotiateContract` (src/unnamed/part_000:51-146): the
strict linear step sequence, returning the outcome together with the
effect trace.  The unchecked indexing of the signed transaction set and
of the proof-output lists is embedded as an explicit `panicked` branch. -/
def negotiateContract (env : NegEnv) (host : HostDBEntry) (fc : FileContract) :
    Outcome × List Effect :=
  match env.keyGen with
  | .error _ => (.failure .keyGen, [.netSend])
  | .ok (ourSK, ourPK) =>
    let uc : UnlockConditions := { publicKeys := [ourPK, host.publicKey], signaturesRequired := 2 }
    let fc1 := { fc with unlockHash := uc.unlockHash }
    match env.fund with
    | .error _ => (.failure .fund, [.netSend])
    | .ok _ =>
      match env.sign with
      | .error _ => (.failure .sign, [.fund fc1.payout])
      | .ok signedTxnSet =>
        match signedTxnSet with
        | [] => (.panicked, [.fund fc1.payout])
        | t :: ts =>
          let lastTxn := (t :: ts).getLast (List.cons_ne_nil t ts)
          match env.sendAccept with
          | .error _ => (.failure .sendAccept, [.fund fc1.payout, .netSend])
          | .ok _ =>
            match env.sendTxnSet with
            | .error _ => (.failure .sendTxnSet, [.fund fc1.payout, .netSend, .netSend])
            | .ok _ =>
              match env.readResponse with
              | .error _ =>
                (.failure .readResponse, [.fund fc1.payout, .netSend, .netSend, .netRead])
              | .ok response =>
                if response = acceptResponse then
                  match env.readHostTxnSet with
                  | .error _ =>
                    (.failure .readHostTxn,
                      [.fund fc1.payout, .netSend, .netSend, .netRead, .netRead])
                  | .ok _hostTxnSet =>
                    if env.submit = SubmitResult.failed then
                      (.failure .submit,
                        [.fund fc1.payout, .netSend, .netSend, .netRead, .netRead, .submit])
                    else
                      if 2 ≤ fc1.validProofOutputs.length ∧ 2 ≤ fc1.missedProofOutputs.length then
                        let d : SiacoinOutput := ⟨0, 0⟩
                        (.success
                          { ip := host.netAddress
                            id := lastTxn.fcID0
                            fileContract := fc1
                            lastRevision :=
                              { parentID := lastTxn.fcID0
                                unlockConditions := uc
                                newRevisionNumber := fc1.revisionNumber
                                newFileSize := fc1.fileSize
                                newFileMerkleRoot := fc1.fileMerkleRoot
                                newWindowStart := fc1.windowStart
                                newWindowEnd := fc1.windowEnd
                                newValidProofOutputs :=
                                  [fc1.validProofOutputs.getD 0 d, fc1.validProofOutputs.getD 1 d]
                                newMissedProofOutputs :=
                                  [fc1.missedProofOutputs.getD 0 d, fc1.missedProofOutputs.getD 1 d]
                                newUnlockHash := fc1.unlockHash }
                            lastRevisionTxn := ⟨0⟩
                            secretKey := ourSK },
                          [.fund fc1.payout, .netSend, .netSend, .netRead, .netRead, .submit])
                      else
                        (.panicked,
                          [.fund fc1.payout, .netSend, .netSend, .netRead, .netRead, .submit])
                else
                  (.failure .hostRejected, [.fund fc1.payout, .netSend, .netSend, .netRead])

/-- The file-contract terms built by `newContract`
(src/unnamed/part_000:174-198).  `postTax` is modelled from the spec:
`types.PostTax` (not under src/) maps a block height and an amount to the
amount net of the ledger's mandatory tax; every theorem below holds for an
arbitrary such function. -/
def buildFileContract (postTax : Nat → Nat → Nat) (host : HostDBEntry)
    (ourAddress height filesize endHeight : Nat) : FileContract :=
  let renterCost := host.contractPrice * filesize * (endHeight - height)
  { fileSize := 0
    fileMerkleRoot := 0
    windowStart := endHeight
    windowEnd := (endHeight + host.windowSize) % uint64Mod
    payout := renterCost + host.collateral
    unlockHash := 0
    revisionNumber := 0
    validProofOutputs :=
      [⟨postTax height renterCost, ourAddress⟩, ⟨0, host.unlockHash⟩]
    missedProofOutputs :=
      [⟨postTax height renterCost, ourAddress⟩, ⟨0, 0⟩] }

/-- The contractor's mutable, persisted state. -/
structure ContractorState where
  contracts : List (Nat × Contract)
  spentPeriod : Nat
  spentTotal : Nat
  cachedAddress : Nat
  blockHeight : Nat
  renewHeight : Nat
deriving DecidableEq

/-- Go map assignment `c.contracts[id] = contract`: overwrite the key. -/
def insertContract (k : Nat) (v : Contract) (m : List (Nat × Contract)) :
    List (Nat × Contract) :=
  (k, v) :: m.filter (fun p => p.1 != k)

/-- Environment of one `newContract` call: outcomes of the wallet address
request, the dial, the RPC announcement write, the settings verification
(returning the refreshed host descriptor), and the negotiation steps. -/
structure NewEnv where
  nextAddress : Except Unit Nat
  dial : Except Unit Unit
  writeRPC : Except Unit Unit
  verify : Except Unit HostDBEntry
  neg : NegEnv

/-- Continuation of `newContract` after the address-reservation step:
duration check, terms construction, dial, RPC announcement, settings
verification, negotiation, and on success the locked bookkeeping update
(src/unnamed/part_000:169-234). -/
def newContractAfterAddr (postTax : Nat → Nat → Nat) (env : NewEnv)
    (st1 : ContractorState) (host : HostDBEntry)
    (filesize endHeight ourAddress : Nat) (e1 : List Effect) :
    ContractorState × Outcome × List Effect :=
  if endHeight ≤ st1.blockHeight then (st1, .failure .invalidDuration, e1)
  else
    let fc := buildFileContract postTax host ourAddress st1.blockHeight filesize endHeight
    match env.dial with
    | .error _ => (st1, .failure .dial, e1 ++ [.dial])
    | .ok _ =>
      match env.writeRPC with
      | .error _ => (st1, .failure .rpcWrite, e1 ++ [.dial, .rpcWrite])
      | .ok _ =>
        match env.verify with
        | .error _ => (st1, .failure .verify, e1 ++ [.dial, .rpcWrite, .readSettings])
        | .ok host2 =>
          match negotiateContract env.neg host2 fc with
          | (.panicked, e2) =>
            (st1, .panicked, e1 ++ [.dial, .rpcWrite, .readSettings, .startTxn] ++ e2)
          | (.failure e, e2) =>
            (st1, .failure e,
              e1 ++ [.dial, .rpcWrite, .readSettings, .startTxn] ++ e2 ++ [.drop])
          | (.success c, e2) =>
            ({ st1 with
                contracts := insertContract c.id c st1.contracts
                spentPeriod := st1.spentPeriod + fc.payout
                spentTotal := st1.spentTotal + fc.payout
                cachedAddress := 0 },
              .success c,
              e1 ++ [.dial, .rpcWrite, .readSettings, .startTxn] ++ e2 ++ [.save])

/-- Embedding of `newContract` (src/unnamed/part_000:150-235): price
ceiling gate, cached-address reservation, then `newContractAfterAddr`.
`maxPrice` is the fixed ceiling (its numeric value,
`modules.StoragePriceToConsensus(500000)`, lives outside src/ and no claim
depends on it). -/
def newContract (postTax : Nat → Nat → Nat) (maxPrice : Nat) (env : NewEnv)
    (st : ContractorState) (host : HostDBEntry) (filesize endHeight : Nat) :
    ContractorState × Outcome × List Effect :=
  if maxPrice < host.contractPrice then (st, .failure .tooExpensive, [])
  else
    if st.cachedAddress = 0 then
      match env.nextAddress with
      | .error _ => (st, .failure .wallet, [.nextAddress])
      | .ok a =>
        newContractAfterAddr postTax env { st with cachedAddress := a } host
          filesize endHeight a [.nextAddress]
    else
      newContractAfterAddr postTax env st host filesize endHeight st.cachedAddress []

/-- Embedding of `modules.Allowance`. -/
structure Allowance where
  funds : Nat
  hosts : Nat
  period : Nat
  renewWindow : Nat
deriving DecidableEq

/-- One sampled candidate host as `formContracts` observes it: its
advertised contract price, and whether the `newContract` attempt against
it would succeed (abstracting the per-attempt network environment). -/
structure HostCand where
  contractPrice : Nat
  formationSucceeds : Bool
deriving DecidableEq

/-- Result of one `formContracts` pass.  `done` records the computed
per-host filesize, the number of successfully formed contracts, and the
recorded renew height; `panicked` is Go's division-by-zero panic. -/
inductive FormResult where
  | notEnoughHosts
  | panicked
  | insufficientFunds
  | allowanceTooLarge
  | done (filesize : Nat) (successes : Nat) (renewHeight : Nat)
deriving DecidableEq

/-- The candidate loop of `formContracts` (src/unnamed/part_000:274-287):
attempt each candidate in order; after every attempt the counter
`numContracts` is incremented (whether or not the attempt succeeded) and
the loop stops as soon as it reaches `target`.  Returns the number of
successful formations over the executed iterations. -/
def formContractsLoop (target : Nat) : List Bool → Nat → Nat
  | [], _ => 0
  | outcome :: rest, numContracts =>
    (if outcome then 1 else 0) +
      (if target ≤ numContracts + 1 then 0 else formContractsLoop target rest (numContracts + 1))

/-- Embedding of `formContracts` (src/unnamed/part_000:238-292).
`sectorSize` is modelled from the spec: `modules.SectorSize` (the fixed
unit sector size, not under src/) is a parameter; `blockHeight` is the
contractor's current height; `cands` is the host sample returned by
`RandomHosts(2*a.Hosts)`.  The two `Currency.Div` calls panic in Go when
the divisor is zero (`panicked`); `Currency.Uint64` fails for quotients
`≥ 2^64` (`allowanceTooLarge`); the final filesize multiplication is Go
`uint64` arithmetic and wraps. -/
def formContracts (sectorSize blockHeight : Nat) (a : Allowance)
    (cands : List HostCand) : FormResult :=
  if cands.length < a.hosts then .notEnoughHosts
  else if cands.length = 0 then .panicked
  else
    let avgPrice := (cands.map HostCand.contractPrice).sum / cands.length
    let costPerSector := avgPrice * a.hosts * sectorSize * a.period
    if a.funds < costPerSector then .insufficientFunds
    else if costPerSector = 0 then .panicked
    else
      let numSectors := a.funds / costPerSector
      if uint64Mod ≤ numSectors then .allowanceTooLarge
      else
        .done (numSectors * sectorSize % uint64Mod)
          (formContractsLoop a.hosts (cands.map HostCand.formationSucceeds) 0)
          ((blockHeight + a.period) % uint64Mod)

/-- The filesize formula exactly as the spec states it:
`filesize = floor(F / (M × H × U × P)) × U`. -/
def specFilesize (F M H U P : Nat) : Nat :=
  F / (M * H * U * P) * U

/-- Sample `postTax` instantiation (no tax) used for concrete runs. -/
def postTaxId : Nat → Nat → Nat := fun _ c => c

/-- Sample affordable host. -/
def host0 : HostDBEntry :=
  { netAddress := 1, publicKey := 2, contractPrice := 1, collateral := 0,
    windowSize := 10, unlockHash := 3 }

/-- Sample host whose advertised price is above the sample ceilings used
in the concrete runs below. -/
def hostPricey : HostDBEntry := { host0 with contractPrice := 10 }

/-- Sample host offering nonzero collateral. -/
def hostColl : HostDBEntry := { host0 with collateral := 5 }

/-- Negotiation environment in which every external step succeeds. -/
def okNegEnv : NegEnv :=
  { keyGen := .ok (11, 12), fund := .ok (), sign := .ok [⟨42⟩],
    sendAccept := .ok (), sendTxnSet := .ok (),
    readResponse := .ok acceptResponse, readHostTxnSet := .ok [],
    submit := .ok }

/-- Negotiation environment in which the pool reports a duplicate set. -/
def negEnvDup : NegEnv := { okNegEnv with submit := .duplicate }

/-- Formation environment in which every external step succeeds. -/
def envAllOk : NewEnv :=
  { nextAddress := .ok 7, dial := .ok (), writeRPC := .ok (),
    verify := .ok host0, neg := okNegEnv }

/-- Formation environment whose dial fails. -/
def envDialFail : NewEnv := { envAllOk with dial := .error () }

/-- Empty contractor state at height 0. -/
def stBase : ContractorState :=
  { contracts := [], spentPeriod := 0, spentTotal := 0, cachedAddress := 0,
    blockHeight := 0, renewHeight := 0 }

/-- Empty contractor state at height 5. -/
def st5 : ContractorState := { stBase with blockHeight := 5 }

/-- Sample well-formed file-contract terms (two valid-proof and two
missed-proof outputs). -/
def fcSample : FileContract := buildFileContract postTaxId host0 7 0 3 5

/-- Projection of a successful outcome to its contract. -/
def outcomeContract : Outcome → Contract
  | Outcome.success c => c
  | _ =>
    { ip := 0, id := 0,
      fileContract :=
        { fileSize := 0, fileMerkleRoot := 0, windowStart := 0, windowEnd := 0,
          payout := 0, unlockHash := 0, revisionNumber := 0,
          validProofOutputs := [], missedProofOutputs := [] },
      lastRevision :=
        { parentID := 0, unlockConditions := ⟨[], 0⟩, newRevisionNumber := 0,
          newFileSize := 0, newFileMerkleRoot := 0, newWindowStart := 0,
          newWindowEnd := 0, newValidProofOutputs := [],
          newMissedProofOutputs := [], newUnlockHash := 0 },
      lastRevisionTxn := ⟨0⟩, secretKey := 0 }

/-- If negotiation succeeds, the returned contract carries the input
terms with only the unlock hash filled in; in particular its payout is
the payout of the terms handed to `negotiateContract`. -/
theorem negotiateContract_success_payout (env : NegEnv) (host : HostDBEntry)
    (fc : FileContract) (c : Contract) (es : List Effect)
    (h : negotiateContract env host fc = (Outcome.success c, es)) :
    c.fileContract.payout = fc.payout := by
  unfold negotiateContract at h
  repeat' split at h
  all_goals try simp_all
  by_cases hb : 2 ≤ fc.validProofOutputs.length ∧ 2 ≤ fc.missedProofOutputs.length
  · rw [if_pos hb] at h
    simp only [Prod.mk.injEq, Outcome.success.injEq] at h
    obtain ⟨hc, -⟩ := h
    subst hc
    rfl
  · rw [if_neg hb] at h
    simp at h

/-- C8: if the host's advertised contract price exceeds the ceiling,
`newContract` returns `errTooExpensive` with the state untouched and an
empty effect trace: no network I/O, no fund reservation and no address
reservation happened. -/
theorem newContract_too_expensive_no_effects
    (postTax : Nat → Nat → Nat) (maxPrice : Nat) (env : NewEnv)
    (st : ContractorState) (host : HostDBEntry) (filesize endHeight : Nat)
    (h : maxPrice < host.contractPrice) :
    newContract postTax maxPrice env st host filesize endHeight =
      (st, Outcome.failure Err.tooExpensive, []) := by
  unfold newContract
  simp [h]

/-- Witness for `newContract_too_expensive_no_effects` at a concrete
over-priced host. -/
theorem newContract_too_expensive_no_effects_witness :
    newContract postTaxId 5 envAllOk stBase hostPricey 0 3 =
      (stBase, Outcome.failure Err.tooExpensive, []) :=
  newContract_too_expensive_no_effects postTaxId 5 envAllOk stBase hostPricey 0 3
    (by decide)

/-- C9 (amended): whenever the price-ceiling gate passes and an address is
available (cached, or freshly obtained from the wallet), every call whose
target end height is not strictly after the current block height fails
with the invalid-duration error, regardless of all other parameters. -/
theorem newContract_invalid_duration
    (postTax : Nat → Nat → Nat) (maxPrice : Nat) (env : NewEnv)
    (st : ContractorState) (host : HostDBEntry) (filesize endHeight : Nat)
    (hprice : ¬ maxPrice < host.contractPrice)
    (haddr : st.cachedAddress ≠ 0 ∨ ∃ a, env.nextAddress = Except.ok a)
    (hdur : endHeight ≤ st.blockHeight) :
    (newContract postTax maxPrice env st host filesize endHeight).2.1 =
      Outcome.failure Err.invalidDuration := by
  unfold newContract newContractAfterAddr
  rcases haddr with h0 | ⟨a, ha⟩
  · simp [hprice, h0, hdur]
  · by_cases hz : st.cachedAddress = 0
    · simp [hprice, hz, ha, hdur]
    · simp [hprice, hz, hdur]

/-- Witness for `newContract_invalid_duration`: end height equal to the
current height is rejected as an invalid duration. -/
theorem newContract_invalid_duration_witness :
    (newContract postTaxId 5 envAllOk st5 host0 0 5).2.1 =
      Outcome.failure Err.invalidDuration :=
  newContract_invalid_duration postTaxId 5 envAllOk st5 host0 0 5
    (by decide) (Or.inr ⟨7, rfl⟩) (by decide)

/-- C9 counterexample: with an over-priced host, a call whose end height
equals the current height is rejected with `errTooExpensive`, not with the
invalid-duration error — so the claim's "regardless of all other
parameters" fails as stated. -/
theorem newContract_duration_after_price_cex :
    (newContract postTaxId 5 envAllOk st5 hostPricey 0 5).2.1 =
      Outcome.failure Err.tooExpensive ∧
    Err.tooExpensive ≠ Err.invalidDuration ∧
    st5.blockHeight = 5 := by decide

/-- C4 counterexample: for a host offering collateral 5, the host-side
valid-proof payout of the freshly built terms is 0, not the collateral —
the claim that it "carries the host's collateral" is false. -/
theorem buildFileContract_collateral_cex :
    ((buildFileContract postTaxId hostColl 9 0 1 2).validProofOutputs.getD 1 ⟨0, 0⟩).value = 0 ∧
    hostColl.collateral = 5 ∧ (0 : Nat) ≠ 5 := by decide

/-- C4 (amended): in every freshly built contract's terms, the host-side
missed-proof payout is zero and unlock-routed to the burn (zero) address,
and the host-side valid-proof payout is also zero, routed to the host's
address — the collateral is not carried by any renter-built output. -/
theorem buildFileContract_host_outputs (postTax : Nat → Nat → Nat)
    (host : HostDBEntry) (ourAddress height filesize endHeight : Nat) :
    (buildFileContract postTax host ourAddress height filesize endHeight).validProofOutputs.getD 1 ⟨0, 0⟩ =
        ⟨0, host.unlockHash⟩ ∧
    (buildFileContract postTax host ourAddress height filesize endHeight).missedProofOutputs.getD 1 ⟨0, 0⟩ =
        ⟨0, 0⟩ :=
  ⟨rfl, rfl⟩

/-- C5: in every freshly built contract's terms, the renter's valid-proof
payout and the renter's missed-proof payout are numerically equal, and
both equal the rent cost net of the ledger tax at the current height
(`postTax height renterCost`). -/
theorem buildFileContract_renter_payouts_equal (postTax : Nat → Nat → Nat)
    (host : HostDBEntry) (ourAddress height filesize endHeight : Nat) :
    ((buildFileContract postTax host ourAddress height filesize endHeight).validProofOutputs.getD 0 ⟨0, 0⟩).value =
      ((buildFileContract postTax host ourAddress height filesize endHeight).missedProofOutputs.getD 0 ⟨0, 0⟩).value ∧
    ((buildFileContract postTax host ourAddress height filesize endHeight).validProofOutputs.getD 0 ⟨0, 0⟩).value =
      postTax height (host.contractPrice * filesize * (endHeight - height)) :=
  ⟨rfl, rfl⟩

/-- C1: evaluation at the failing input.  With `Allowance.Hosts = 1` and
two sampled candidates of which the first fails and the second would
succeed, the pass ends with 0 contracts formed: the loop counter counts
the failed attempt toward the stopping threshold and breaks before
reaching the remaining succeeding candidate, contradicting the spec's
"stop once the number of successful contracts reaches `Allowance.Hosts`".
-/
theorem formContracts_failed_attempt_counts :
    formContracts 1 0 ⟨2, 1, 1, 0⟩ [⟨1, false⟩, ⟨1, true⟩] = FormResult.done 2 0 1 ∧
    formContractsLoop 1 [false, true] 0 = 0 ∧
    formContractsLoop 1 [true] 0 = 1 := by decide

/-- C3 counterexample: with sector size `2^22`, one sampled host of price
1, `Hosts = 1`, `Period = 1` and `Funds = 2^64`, the affordability check
passes and the quotient `2^42` fits `uint64`, yet the computed filesize is
`2^42 * 2^22 mod 2^64 = 0` while the spec formula gives `2^64`: the final
multiplication silently wraps in 64-bit arithmetic. -/
theorem formContracts_filesize_wrap_cex :
    formContracts (2 ^ 22) 0 ⟨2 ^ 64, 1, 1, 0⟩ [⟨1, true⟩] = FormResult.done 0 1 1 ∧
    specFilesize (2 ^ 64) 1 1 (2 ^ 22) 1 = 2 ^ 64 ∧
    (0 : Nat) ≠ 2 ^ 64 := by decide

/-- C3 (amended): for every pass that passes the pre-flight affordability
check (with `M` the integer mean price actually computed by the code and
a nonzero per-sector cost), the computed filesize equals the spec formula
`floor(F / (M×H×U×P)) × U` reduced modulo `2^64`; and whenever the
quotient overflows the `uint64` range the pass fails with the distinct
allowance-too-large classification instead of wrapping. -/
theorem formContracts_filesize_formula
    (U bh : Nat) (a : Allowance) (cands : List HostCand) (M cps : Nat)
    (hn : a.hosts ≤ cands.length) (hpos : 0 < cands.length)
    (hM : M = (cands.map HostCand.contractPrice).sum / cands.length)
    (hcps : cps = M * a.hosts * U * a.period)
    (haff : cps ≤ a.funds) (hnz : 0 < cps) :
    (a.funds / cps < uint64Mod →
      formContracts U bh a cands =
        FormResult.done (specFilesize a.funds M a.hosts U a.period % uint64Mod)
          (formContractsLoop a.hosts (cands.map HostCand.formationSucceeds) 0)
          ((bh + a.period) % uint64Mod)) ∧
    (uint64Mod ≤ a.funds / cps → formContracts U bh a cands = FormResult.allowanceTooLarge) := by
  subst hM
  subst hcps
  unfold formContracts specFilesize
  constructor <;> intro h
  · rw [if_neg (Nat.not_lt.mpr hn), if_neg (by omega), if_neg (Nat.not_lt.mpr haff),
      if_neg (by omega), if_neg (Nat.not_le.mpr h)]
  · rw [if_neg (Nat.not_lt.mpr hn), if_neg (by omega), if_neg (Nat.not_lt.mpr haff),
      if_neg (by omega), if_pos h]

/-- Witness for `formContracts_filesize_formula` at a concrete affordable
allowance. -/
theorem formContracts_filesize_formula_witness :
    formContracts 2 0 ⟨10, 1, 1, 0⟩ [⟨1, true⟩] = FormResult.done 10 1 1 := by
  have h :=
    (formContracts_filesize_formula 2 0 ⟨10, 1, 1, 0⟩ [⟨1, true⟩] 1 2
        (by decide) (by decide) (by decide) (by decide) (by decide) (by decide)).1
      (by decide)
  simpa using h

/-- C2 counterexample: a concrete attempt that reserves a fresh address
and then fails the duration check concludes with the cached address still
holding the reserved (nonzero) address — it is not left cleared. -/
theorem newContract_address_not_cleared_cex :
    (newContract postTaxId 10 envAllOk st5 host0 0 5).1.cachedAddress = 7 ∧
    (newContract postTaxId 10 envAllOk st5 host0 0 5).2.1 =
      Outcome.failure Err.invalidDuration ∧
    (7 : Nat) ≠ 0 := by decide

/-- If the continuation of `newContract` after address reservation fails,
the contractor state is returned unchanged, and whenever the trace shows a
fund reservation it also shows the draft being dropped (provided the
prefix `e1` holds no fund reservation, as at both call sites). -/
theorem newContractAfterAddr_failure_cleanup
    (postTax : Nat → Nat → Nat) (env : NewEnv) (st1 : ContractorState)
    (host : HostDBEntry) (filesize endHeight ourAddress : Nat) (e1 : List Effect)
    (st' : ContractorState) (e : Err) (tr : List Effect)
    (he1 : ∀ p, Effect.fund p ∉ e1)
    (hr : newContractAfterAddr postTax env st1 host filesize endHeight ourAddress e1 =
      (st', Outcome.failure e, tr)) :
    st' = st1 ∧ ∀ p, Effect.fund p ∈ tr → Effect.drop ∈ tr := by
  unfold newContractAfterAddr at hr
  by_cases hd : endHeight ≤ st1.blockHeight
  · rw [if_pos hd] at hr
    injection hr with h1 h23
    injection h23 with h2 h3
    subst h1; subst h3
    exact ⟨rfl, fun p hp => absurd hp (he1 p)⟩
  rw [if_neg hd] at hr
  rcases hdl : env.dial with u | u <;> simp only [hdl] at hr
  · injection hr with h1 h23
    injection h23 with h2 h3
    subst h1; subst h3
    refine ⟨rfl, fun p hp => ?_⟩
    rcases List.mem_append.mp hp with h | h
    · exact absurd h (he1 p)
    · simp at h
  rcases hw : env.writeRPC with v | v <;> simp only [hw] at hr
  · injection hr with h1 h23
    injection h23 with h2 h3
    subst h1; subst h3
    refine ⟨rfl, fun p hp => ?_⟩
    rcases List.mem_append.mp hp with h | h
    · exact absurd h (he1 p)
    · simp at h
  rcases hv : env.verify with w | host2 <;> simp only [hv] at hr
  · injection hr with h1 h23
    injection h23 with h2 h3
    subst h1; subst h3
    refine ⟨rfl, fun p hp => ?_⟩
    rcases List.mem_append.mp hp with h | h
    · exact absurd h (he1 p)
    · simp at h
  rcases hng : negotiateContract env.neg host2
      (buildFileContract postTax host ourAddress st1.blockHeight filesize endHeight)
    with ⟨o, e2⟩
  rcases o with _ | e' | c <;> simp only [hng] at hr
  · injection hr with h1 h23
    injection h23 with h2 h3
    exact absurd h2 (by simp)
  · injection hr with h1 h23
    injection h23 with h2 h3
    subst h1; subst h3
    exact ⟨rfl, fun p hp => by simp⟩
  · injection hr with h1 h23
    injection h23 with h2 h3
    exact absurd h2 (by simp)

/-- C2 (amended): for every attempt that passes the price gate and fails,
any reserved funds are released before the error propagates (a `drop` of
the funding draft follows every `fund` in the trace), and the cached
address is retained, not cleared: an attempt that started with a cached
address leaves it unchanged, and one that reserved a fresh address leaves
that address cached for the next attempt. -/
theorem newContract_failure_cleanup
    (postTax : Nat → Nat → Nat) (maxPrice : Nat) (env : NewEnv)
    (st : ContractorState) (host : HostDBEntry) (filesize endHeight : Nat)
    (st' : ContractorState) (e : Err) (tr : List Effect)
    (hprice : ¬ maxPrice < host.contractPrice)
    (hr : newContract postTax maxPrice env st host filesize endHeight =
      (st', Outcome.failure e, tr)) :
    (∀ p, Effect.fund p ∈ tr → Effect.drop ∈ tr) ∧
    (st.cachedAddress ≠ 0 → st'.cachedAddress = st.cachedAddress) ∧
    (∀ a, st.cachedAddress = 0 → env.nextAddress = Except.ok a →
      st'.cachedAddress = a) := by
  unfold newContract at hr
  rw [if_neg hprice] at hr
  by_cases hz : st.cachedAddress = 0
  · rw [if_pos hz] at hr
    rcases hna : env.nextAddress with u | a <;> simp only [hna] at hr
    · injection hr with h1 h23
      injection h23 with h2 h3
      subst h1; subst h3
      refine ⟨fun p hp => by simp at hp, fun _ => rfl, fun a h0 hok => ?_⟩
      exact absurd hok (by simp)
    · have h := newContractAfterAddr_failure_cleanup postTax env
        { st with cachedAddress := a } host filesize endHeight a
        [Effect.nextAddress] st' e tr (fun p => by simp) hr
      refine ⟨h.2, fun hne => absurd hz hne, fun a' h0 hok => ?_⟩
      injection hok with ha
      subst ha
      rw [h.1]
  · rw [if_neg hz] at hr
    have h := newContractAfterAddr_failure_cleanup postTax env st host filesize
      endHeight st.cachedAddress [] st' e tr (fun p => by simp) hr
    exact ⟨h.2, fun _ => by rw [h.1], fun a h0 _ => absurd h0 hz⟩

/-- Witness for `newContract_failure_cleanup` at a concrete failing dial. -/
theorem newContract_failure_cleanup_witness :
    (∀ p, Effect.fund p ∈ [Effect.nextAddress, Effect.dial] →
      Effect.drop ∈ [Effect.nextAddress, Effect.dial]) ∧
    (stBase.cachedAddress ≠ 0 →
      (⟨[], 0, 0, 7, 0, 0⟩ : ContractorState).cachedAddress = stBase.cachedAddress) ∧
    (∀ a, stBase.cachedAddress = 0 → envDialFail.nextAddress = Except.ok a →
      (⟨[], 0, 0, 7, 0, 0⟩ : ContractorState).cachedAddress = a) :=
  newContract_failure_cleanup postTaxId 10 envDialFail stBase host0 0 5
    ⟨[], 0, 0, 7, 0, 0⟩ Err.dial [Effect.nextAddress, Effect.dial]
    (by decide) (by decide)

/-- If the continuation of `newContract` after address reservation
succeeds, the returned state is the locked bookkeeping update: contract
inserted under its id, both spend counters increased by the contract's
payout, cached address cleared, heights untouched, state persisted. -/
theorem newContractAfterAddr_success_bookkeeping
    (postTax : Nat → Nat → Nat) (env : NewEnv) (st1 : ContractorState)
    (host : HostDBEntry) (filesize endHeight ourAddress : Nat) (e1 : List Effect)
    (st' : ContractorState) (c : Contract) (tr : List Effect)
    (hr : newContractAfterAddr postTax env st1 host filesize endHeight ourAddress e1 =
      (st', Outcome.success c, tr)) :
    st'.contracts = insertContract c.id c st1.contracts ∧
    st'.spentPeriod = st1.spentPeriod + c.fileContract.payout ∧
    st'.spentTotal = st1.spentTotal + c.fileContract.payout ∧
    st'.cachedAddress = 0 ∧
    st'.blockHeight = st1.blockHeight ∧
    st'.renewHeight = st1.renewHeight ∧
    Effect.save ∈ tr := by
  unfold newContractAfterAddr at hr
  by_cases hd : endHeight ≤ st1.blockHeight
  · rw [if_pos hd] at hr
    injection hr with h1 h23
    injection h23 with h2 h3
    exact absurd h2 (by simp)
  rw [if_neg hd] at hr
  rcases hdl : env.dial with u | u <;> simp only [hdl] at hr
  · injection hr with h1 h23
    injection h23 with h2 h3
    exact absurd h2 (by simp)
  rcases hw : env.writeRPC with v | v <;> simp only [hw] at hr
  · injection hr with h1 h23
    injection h23 with h2 h3
    exact absurd h2 (by simp)
  rcases hv : env.verify with w | host2 <;> simp only [hv] at hr
  · injection hr with h1 h23
    injection h23 with h2 h3
    exact absurd h2 (by simp)
  rcases hng : negotiateContract env.neg host2
      (buildFileContract postTax host ourAddress st1.blockHeight filesize endHeight)
    with ⟨o, e2⟩
  rcases o with _ | e' | c' <;> simp only [hng] at hr
  · injection hr with h1 h23
    injection h23 with h2 h3
    exact absurd h2 (by simp)
  · injection hr with h1 h23
    injection h23 with h2 h3
    exact absurd h2 (by simp)
  · injection hr with h1 h23
    injection h23 with h2 h3
    injection h2 with hc
    subst hc
    subst h1
    subst h3
    have hp := negotiateContract_success_payout _ _ _ _ _ hng
    refine ⟨rfl, ?_, ?_, rfl, rfl, rfl, by simp⟩
    · simp [hp]
    · simp [hp]

/-- C6: every successful formation updates the contractor state by
inserting the contract under its id, adding the contract's payout to both
spend counters, clearing the cached address, and persisting (`save` is in
the trace); the height fields are untouched. -/
theorem newContract_success_bookkeeping
    (postTax : Nat → Nat → Nat) (maxPrice : Nat) (env : NewEnv)
    (st : ContractorState) (host : HostDBEntry) (filesize endHeight : Nat)
    (st' : ContractorState) (c : Contract) (tr : List Effect)
    (hr : newContract postTax maxPrice env st host filesize endHeight =
      (st', Outcome.success c, tr)) :
    st'.contracts = insertContract c.id c st.contracts ∧
    st'.spentPeriod = st.spentPeriod + c.fileContract.payout ∧
    st'.spentTotal = st.spentTotal + c.fileContract.payout ∧
    st'.cachedAddress = 0 ∧
    st'.blockHeight = st.blockHeight ∧
    st'.renewHeight = st.renewHeight ∧
    Effect.save ∈ tr := by
  unfold newContract at hr
  by_cases hp : maxPrice < host.contractPrice
  · rw [if_pos hp] at hr
    injection hr with h1 h23
    injection h23 with h2 h3
    exact absurd h2 (by simp)
  rw [if_neg hp] at hr
  by_cases hz : st.cachedAddress = 0
  · rw [if_pos hz] at hr
    rcases hna : env.nextAddress with u | a <;> simp only [hna] at hr
    · injection hr with h1 h23
      injection h23 with h2 h3
      exact absurd h2 (by simp)
    · have h := newContractAfterAddr_success_bookkeeping postTax env
        { st with cachedAddress := a } host filesize endHeight a
        [Effect.nextAddress] st' c tr hr
      simpa using h
  · rw [if_neg hz] at hr
    exact newContractAfterAddr_success_bookkeeping postTax env st host filesize
      endHeight st.cachedAddress [] st' c tr hr

/-- Witness for `newContract_success_bookkeeping` at a concrete
successful run. -/
theorem newContract_success_bookkeeping_witness :
    (newContract postTaxId 10 envAllOk stBase host0 3 5).1.cachedAddress = 0 ∧
    Effect.save ∈ (newContract postTaxId 10 envAllOk stBase host0 3 5).2.2 := by
  have h := newContract_success_bookkeeping postTaxId 10 envAllOk stBase host0 3 5
    (newContract postTaxId 10 envAllOk stBase host0 3 5).1
    (outcomeContract (newContract postTaxId 10 envAllOk stBase host0 3 5).2.1)
    (newContract postTaxId 10 envAllOk stBase host0 3 5).2.2
    (by decide)
  exact ⟨h.2.2.2.1, h.2.2.2.2.2.2⟩

/-- C7: in every negotiation that reaches the submission step, a
duplicate-transaction-set outcome is treated as success and the assembled
contract is returned, while any other submission failure aborts the
negotiation with the submit error. -/
theorem negotiateContract_duplicate_success (env : NegEnv) (host : HostDBEntry)
    (fc : FileContract)
    (hkey : ∃ ks, env.keyGen = Except.ok ks)
    (hfund : env.fund = Except.ok ())
    (hsign : ∃ t ts, env.sign = Except.ok (t :: ts))
    (hsa : env.sendAccept = Except.ok ())
    (hst : env.sendTxnSet = Except.ok ())
    (hrr : env.readResponse = Except.ok acceptResponse)
    (hrh : ∃ hs, env.readHostTxnSet = Except.ok hs)
    (hvp : 2 ≤ fc.validProofOutputs.length) (hmp : 2 ≤ fc.missedProofOutputs.length) :
    (env.submit = SubmitResult.duplicate →
      ∃ c, (negotiateContract env host fc).1 = Outcome.success c) ∧
    (env.submit = SubmitResult.failed →
      (negotiateContract env host fc).1 = Outcome.failure Err.submit) := by
  obtain ⟨⟨sk, pk⟩, hk⟩ := hkey
  obtain ⟨t, ts, hs⟩ := hsign
  obtain ⟨hsl, hrh⟩ := hrh
  constructor <;> intro hsub
  · unfold negotiateContract
    simp [hk, hfund, hs, hsa, hst, hrr, hrh, hsub, hvp, hmp]
  · unfold negotiateContract
    simp [hk, hfund, hs, hsa, hst, hrr, hrh, hsub]

/-- Witness for `negotiateContract_duplicate_success` at a concrete
duplicate submission. -/
theorem negotiateContract_duplicate_success_witness :
    (negEnvDup.submit = SubmitResult.duplicate →
      ∃ c, (negotiateContract negEnvDup host0 fcSample).1 = Outcome.success c) ∧
    (negEnvDup.submit = SubmitResult.failed →
      (negotiateContract negEnvDup host0 fcSample).1 = Outcome.failure Err.submit) :=
  negotiateContract_duplicate_success negEnvDup host0 fcSample
    ⟨(11, 12), rfl⟩ rfl ⟨⟨42⟩, [], rfl⟩ rfl rfl rfl ⟨[], rfl⟩
    (by decide) (by decide)

/-- C10: if the transaction builder's signing step returns a non-empty
set and the file contract carries two valid-proof and two missed-proof
outputs (as every contract built by `newContract` does), the unchecked
indexing in `negotiateContract` is in bounds: the panic branch of the
total embedding is unreachable. -/
theorem negotiateContract_no_panic (env : NegEnv) (host : HostDBEntry)
    (fc : FileContract)
    (hsig : ∀ ts, env.sign = Except.ok ts → ts ≠ [])
    (hvp : fc.validProofOutputs.length = 2) (hmp : fc.missedProofOutputs.length = 2) :
    (negotiateContract env host fc).1 ≠ Outcome.panicked := by
  unfold negotiateContract
  repeat' split
  all_goals simp_all

/-- Witness for `negotiateContract_no_panic` at a concrete well-formed
negotiation. -/
theorem negotiateContract_no_panic_witness :
    (negotiateContract okNegEnv host0 fcSample).1 ≠ Outcome.panicked :=
  negotiateContract_no_panic okNegEnv host0 fcSample
    (by intro ts h; simp only [okNegEnv] at h; cases h; simp)
    (by decide) (by decide)

end Contractor
